import Mathlib

/-!
# Pelican thermostat driver (`driver/pelican/pelican.go`)

A shallow embedding of the status derivation (`GetStatus`) and of the command
encoders (`ModifySetpoints`, `ModifyState`) of the Pelican driver, followed by
the properties proved about them.

Conventions of the embedding.

* A Go `string` is a Lean `String`.  Every comparison the driver makes is
  against an ASCII literal, so comparing characters and comparing bytes agree.
* A Go `float64` is a `Float64`: a finite value is kept exactly as
  `mant * 2 ^ exp`, next to the infinities and NaN.
* A Go `int` is an `Int` inside the range of the platform's word; the
  conversion `int(x)` truncates toward zero when the result is representable
  and is implementation-dependent otherwise (`Platform`).
* The HTTP transport and the XML decoder are outside the driver: what they
  hand back is an argument (`EndResult`), and what the driver asks of them is
  recorded in the list of `Event`s it returns.
-/

namespace PelicanDriver

/-! ## Go values -/

/-- A `float64`: `finite mant exp` denotes `mant * 2 ^ exp` exactly. -/
inductive Float64 where
  | finite (mant : Int) (exp : Int)
  | inf (negative : Bool)
  | nan
deriving DecidableEq

/-- Truncation toward zero of `mant * 2 ^ exp`. -/
def Float64.trunc (mant exp : Int) : Int :=
  if 0 ≤ exp then mant * 2 ^ exp.toNat else Int.tdiv mant (2 ^ (-exp).toNat)

/-- The comparison `x == 1` on a `float64`. -/
def Float64.eqOne : Float64 → Bool
  | .finite mant exp =>
    if 0 ≤ exp then decide (mant * 2 ^ exp.toNat = 1) else decide (mant = 2 ^ (-exp).toNat)
  | .inf _ => false
  | .nan => false

/-- The comparison `x > n` of a `float64` with an integer. -/
def Float64.gtInt (x : Float64) (n : Int) : Bool :=
  match x with
  | .finite mant exp =>
    if 0 ≤ exp then decide (n < mant * 2 ^ exp.toNat) else decide (n * 2 ^ (-exp).toNat < mant)
  | .inf negative => !negative
  | .nan => false

/-- The conversion `float64(n)` of an `int32`, which is exact. -/
def Float64.ofInt32 (n : Int) : Float64 := .finite n 0

/-- What the Go implementation leaves open: whether `int` has 64 bits or 32,
and the result of converting a float that `int` cannot represent. -/
structure Platform where
  wide : Bool
  outOfRange : Float64 → Int

/-- The width of `int` in bits. -/
def Platform.intBits (p : Platform) : Nat := if p.wide then 64 else 32

/-- Whether `n` is a value of the platform's `int`. -/
def Platform.fits (p : Platform) (n : Int) : Bool :=
  decide (-(2 ^ (p.intBits - 1) : Int) ≤ n) && decide (n < 2 ^ (p.intBits - 1))

/-- The conversion `int(x)` of a `float64`: the fraction is discarded; when the
truncated value is not representable the result is some `int` chosen by the
platform. -/
def Platform.toInt (p : Platform) : Float64 → Int
  | .finite mant exp =>
    let t := Float64.trunc mant exp
    if p.fits t then t else Int.bmod (p.outOfRange (.finite mant exp)) (2 ^ p.intBits)
  | x => Int.bmod (p.outOfRange x) (2 ^ p.intBits)

/-- The verb `%d` of `fmt` applied to an `int`. -/
def formatInt (n : Int) : String :=
  if n < 0 then "-" ++ Nat.repr n.natAbs else Nat.repr n.natAbs

/-- The test `strings.HasPrefix(s, pre)`. -/
def HasPrefix (s pre : String) : Bool := pre.data.isPrefixOf s.data

/-- The index expression `m[key]` on a Go map: the zero value when absent. -/
def mapIndex (m : List (String × Int)) (key : String) : Int := (m.lookup key).getD 0

/-! ## Tables -/

def modeNameMappings : List (String × Int) :=
  [("Off", 0), ("Heat", 1), ("Cool", 2), ("Auto", 3)]

def modeValMappings : List String := ["Off", "Heat", "Cool", "Auto"]

def stateMappings : List (String × Int) :=
  [("Off", 0), ("Heat-Stage1", 1), ("Heat-Stage2", 1), ("Cool-Stage1", 2), ("Cool-Stage2", 2)]

/-! ## Records -/

structure Pelican where
  username : String
  password : String
  name : String
  target : String

structure PelicanStatus where
  Temperature : Float64
  RelHumidity : Float64
  HeatingSetpoint : Float64
  CoolingSetpoint : Float64
  Override : Bool
  Fan : Bool
  Mode : Int
  State : Int
  Time : Int
deriving DecidableEq

structure apiThermostat where
  Temperature : Float64
  RelHumidity : Int
  HeatingSetpoint : Int
  CoolingSetpoint : Int
  SetBy : String
  HeatNeedsFan : String
  System : String
  RunStatus : String
  StatusDisplay : String

structure apiResult where
  Thermostat : apiThermostat
  Success : Int
  Message : String

structure apiHistory where
  TimeStamp : String

structure apiRecords where
  Name : String
  History : List apiHistory

structure apiResultHistory where
  Success : Int
  Message : String
  Records : apiRecords

structure pelicanStateParams where
  HeatingSetpoint : Option Float64
  CoolingSetpoint : Option Float64
  Override : Option Float64
  Mode : Option Float64
  Fan : Option Float64

/-- Modelled from the spec: the type `setpointsMsg` is declared outside the
driver file; the spec gives a setpoint change two optional float fields,
`heatingSetpoint?` and `coolingSetpoint?`, which is how `ModifySetpoints` reads
them. -/
structure setpointsMsg where
  HeatingSetpoint : Option Float64
  CoolingSetpoint : Option Float64

/-! ## Transport -/

/-- A request as assembled with `Get(target).Param(k, v)...`. -/
structure Request where
  target : String
  params : List (String × String)
deriving DecidableEq

/-- What the driver does to the outside: requests sent and lines printed. -/
inductive Event where
  | request (r : Request)
  | print (text : String)
deriving DecidableEq

/-- A response: `url` is `resp.Request.URL` as `%s` renders it, `body` is what
`xml.NewDecoder(resp.Body).Decode` yields, an error text or the decoded value. -/
structure Response (α : Type) where
  url : String
  body : Except String α

/-- The pair `(resp, errs)` returned by `End()`; `errs` is the rendering of the
error slice, `none` when the slice is nil. -/
structure EndResult (α : Type) where
  resp : Option (Response α)
  errs : Option String

/-- How a call ends: it returns, or it panics on a nil dereference. -/
inductive Outcome (α : Type) where
  | ret (val : α)
  | panic
deriving DecidableEq

/-- The clock and time-zone services `GetStatus` consults: the two bounds of
the history window already formatted, the parser of history timestamps
(Unix nanoseconds or an error text), and the instant of the snapshot. -/
structure Clock where
  endTime : String
  startTime : String
  parseInLocation : String → Except String Int
  now : Int

/-! ## Operations -/

def statusRequest (pel : Pelican) : Request :=
  { target := pel.target
    params := [("username", pel.username), ("password", pel.password), ("request", "get"),
      ("object", "Thermostat"), ("selection", "name:" ++ pel.name ++ ";"),
      ("value", "temperature;humidity;heatSetting;coolSetting;setBy;HeatNeedsFan;system;runStatus;statusDisplay")] }

def historyRequest (clk : Clock) (pel : Pelican) : Request :=
  { target := pel.target
    params := [("username", pel.username), ("password", pel.password), ("request", "get"),
      ("object", "ThermostatHistory"),
      ("selection", "startDateTime:" ++ clk.startTime ++ ";endDateTime:" ++ clk.endTime ++ ";"),
      ("value", "timestamp")] }

def setRequest (pel : Pelican) (value : String) : Request :=
  { target := pel.target
    params := [("username", pel.username), ("password", pel.password), ("request", "set"),
      ("object", "thermostat"), ("selection", "name:" ++ pel.name ++ ";"),
      ("value", value)] }

/-- Two hours in nanoseconds. -/
def twoHours : Int := 2 * 3600 * 1000000000

/-- The local `fanState` of `GetStatus`. -/
def fanState (thermostat : apiThermostat) : Bool :=
  if HasPrefix thermostat.RunStatus "Heat" then decide (thermostat.HeatNeedsFan = "Yes")
  else if thermostat.RunStatus ≠ "Off" then true
  else false

/-- The local `thermState` of `GetStatus`: the comma-ok lookup in
`stateMappings`, then the branch taken when the key is absent. -/
def thermState (thermostat : apiThermostat) : Int :=
  match stateMappings.lookup thermostat.RunStatus with
  | some v => v
  | none => if thermostat.System = "Off" then 0 else 0

/-- The method `GetStatus`.  The result pairs the status pointer with the
error, as the Go function does.  Reading `Body` off a nil response panics; the
history response is read (by the `defer`) before its transport error is
tested. -/
def GetStatus (clk : Clock) (pel : Pelican) (cur : EndResult apiResult)
    (hist : EndResult apiResultHistory) :
    List Event × Outcome (Option PelicanStatus × Option String) :=
  let sent := [Event.request (statusRequest pel)]
  match cur.errs with
  | some errs =>
    (sent, .ret (none, some ("Error retrieving thermostat status from " ++ pel.target ++ ": " ++ errs)))
  | none =>
  match cur.resp with
  | none => (sent, .panic)
  | some resp =>
  match resp.body with
  | .error err => (sent, .ret (none, some ("Failed to decode response XML: " ++ err)))
  | .ok result =>
  if result.Success = 0 then
    (sent, .ret (none, some ("Error retrieving thermostat status from " ++ resp.url ++ ": " ++ result.Message)))
  else
  let thermostat := result.Thermostat
  if thermostat.StatusDisplay = "Unreachable" then
    (sent ++ [.print ("Thermostat " ++ pel.name ++ " is unreachable\n")], .ret (none, none))
  else
  let fanState := fanState thermostat
  let thermState := thermState thermostat
  let sent := sent ++ [.request (historyRequest clk pel)]
  match hist.resp with
  | none => (sent, .panic)
  | some respHist =>
  match hist.errs with
  | some errsHist =>
    (sent, .ret (none, some ("Error retrieving thermostat status from " ++ pel.target ++ ": " ++ errsHist)))
  | none =>
  match respHist.body with
  | .error histErr => (sent, .ret (none, some ("Failed to decode response XML: " ++ histErr)))
  | .ok histResult =>
  if histResult.Success = 0 then
    (sent, .ret (none, some ("Error retrieving thermostat status from " ++ respHist.url ++ ": " ++ histResult.Message)))
  else
  match histResult.Records.History.getLast? with
  | none => (sent, .ret (none, none))
  | some last =>
  match clk.parseInLocation last.TimeStamp with
  | .error timeErr =>
    (sent, .ret (none, some ("Error parsing " ++ last.TimeStamp ++ " into Time struct: " ++ timeErr ++ "\n")))
  | .ok timestamp =>
  let sent :=
    if timestamp < clk.now - twoHours then
      sent ++ [.print "WARNING temperature data has not changed for 2 hours. This is not necessarily an error\n"]
    else sent
  (sent, .ret (some
    { Temperature := thermostat.Temperature
      RelHumidity := Float64.ofInt32 thermostat.RelHumidity
      HeatingSetpoint := Float64.ofInt32 thermostat.HeatingSetpoint
      CoolingSetpoint := Float64.ofInt32 thermostat.CoolingSetpoint
      Override := decide (thermostat.SetBy ≠ "Schedule")
      Fan := fanState
      Mode := mapIndex modeNameMappings thermostat.System
      State := thermState
      Time := clk.now }, none))

/-- The value clause `ModifySetpoints` builds. -/
def setpointsValue (p : Platform) (setpoints : setpointsMsg) : String :=
  let value := ""
  let value := match setpoints.HeatingSetpoint with
    | some x => value ++ ("heatSetting:" ++ formatInt (p.toInt x) ++ ";")
    | none => value
  let value := match setpoints.CoolingSetpoint with
    | some x => value ++ ("coolSetting:" ++ formatInt (p.toInt x) ++ ";")
    | none => value
  value

/-- The method `ModifySetpoints`; the result is the Go `error`. -/
def ModifySetpoints (p : Platform) (pel : Pelican) (setpoints : setpointsMsg)
    (end_ : EndResult apiResult) : List Event × Outcome (Option String) :=
  let value := setpointsValue p setpoints
  let sent := [Event.request (setRequest pel value)]
  match end_.errs with
  | some errs => (sent, .ret (some ("Error modifying thermostat temp settings: " ++ errs)))
  | none =>
  match end_.resp with
  | none => (sent, .panic)
  | some resp =>
  match resp.body with
  | .error err => (sent, .ret (some ("Failed to decode response XML: " ++ err)))
  | .ok result =>
  if result.Success = 0 then
    (sent, .ret (some ("Error modifying thermostat temp settings: " ++ result.Message)))
  else (sent, .ret none)

/-- The value clause `ModifyState` builds, or the error of an invalid mode. -/
def stateValue (p : Platform) (params : pelicanStateParams) : Except String String :=
  let value := ""
  let afterMode : Except String String := match params.Mode with
    | some m =>
      let mode := p.toInt m
      if mode < 0 ∨ mode > 3 then
        .error ("Specified thermostat mode " ++ formatInt mode ++ " is invalid")
      else
        let systemVal := modeValMappings.getD mode.toNat ""
        .ok (value ++ ("system:" ++ systemVal ++ ";"))
    | none => .ok value
  match afterMode with
  | .error e => .error e
  | .ok value =>
  let value := match params.Override with
    | some o =>
      let scheduleVal := if o.eqOne then "Off" else "On"
      value ++ ("schedule:" ++ scheduleVal ++ ";")
    | none => value
  let value := match params.Fan with
    | some f =>
      let fanVal := if f.eqOne then "On" else "Auto"
      value ++ ("fan:" ++ fanVal ++ ";")
    | none => value
  let value := match params.HeatingSetpoint with
    | some x => value ++ ("heatSetting:" ++ formatInt (p.toInt x) ++ ";")
    | none => value
  let value := match params.CoolingSetpoint with
    | some x => value ++ ("coolSetting:" ++ formatInt (p.toInt x) ++ ";")
    | none => value
  .ok value

/-- The method `ModifyState`; the result is the Go `error`.  Nothing is sent
when the mode is invalid; a transport error is reported with the URL of the
response, which panics when there is no response. -/
def ModifyState (p : Platform) (pel : Pelican) (params : pelicanStateParams)
    (end_ : EndResult apiResult) : List Event × Outcome (Option String) :=
  match stateValue p params with
  | .error e => ([], .ret (some e))
  | .ok value =>
  let sent := [Event.request (setRequest pel value)]
  match end_.errs, end_.resp with
  | some _, none => (sent, .panic)
  | some errs, some resp =>
    (sent, .ret (some ("Error modifying thermostat state: " ++ errs ++ " (" ++ resp.url ++ ")")))
  | none, none => (sent, .panic)
  | none, some resp =>
  match resp.body with
  | .error err => (sent, .ret (some ("Failed to decode response XML: " ++ err)))
  | .ok result =>
  if result.Success = 0 then
    (sent, .ret (some ("Error modifying thermostat state: " ++ result.Message)))
  else (sent, .ret none)

/-! ## The rules as the specification words them -/

/-- The state the specification gives a run status: Heating (1) for
`Heat-Stage1` and `Heat-Stage2`, Cooling (2) for `Cool-Stage1` and
`Cool-Stage2`, Off (0) for any other token. -/
def specState (runStatus : String) : Int :=
  if runStatus = "Heat-Stage1" ∨ runStatus = "Heat-Stage2" then 1
  else if runStatus = "Cool-Stage1" ∨ runStatus = "Cool-Stage2" then 2
  else 0

/-- The fan rule of the specification, as a relation between the run status,
the needs-fan flag and the fan reported: under the prefix `Heat` the fan is on
exactly when the flag is `Yes`; for another token that is not `Off` it is on;
for `Off` it is off. -/
def SpecFan (runStatus needsFan : String) (fan : Bool) : Prop :=
  ((∃ rest : String, runStatus = "Heat" ++ rest) → fan = decide (needsFan = "Yes")) ∧
    ((¬ ∃ rest : String, runStatus = "Heat" ++ rest) → runStatus ≠ "Off" → fan = true) ∧
    (runStatus = "Off" → fan = false)


/-- The value clause of a list of fields in their fixed order: the pair
`key:value;` for each field that is present, nothing for an absent one. -/
def specValueClause (fields : List (String × Option String)) : String :=
  String.join (fields.filterMap fun kv => kv.2.map fun v => kv.1 ++ ":" ++ v ++ ";")

/-- The fields of a state request in the order mode, override, fan, heating
setpoint, cooling setpoint, each under its vendor key with the token written
for it. -/
def stateFields (p : Platform) (params : pelicanStateParams) : List (String × Option String) :=
  [("system", params.Mode.map fun m => modeValMappings.getD (p.toInt m).toNat ""),
    ("schedule", params.Override.map fun o => if o.eqOne then "Off" else "On"),
    ("fan", params.Fan.map fun f => if f.eqOne then "On" else "Auto"),
    ("heatSetting", params.HeatingSetpoint.map fun x => formatInt (p.toInt x)),
    ("coolSetting", params.CoolingSetpoint.map fun x => formatInt (p.toInt x))]

/-- The test `strings.Contains(s, sub)`. -/
def Contains (s sub : String) : Prop := sub.data <:+: s.data

instance (s sub : String) : Decidable (Contains s sub) := by
  unfold Contains
  infer_instance

/-- The number a string of decimal digits denotes, read from the left. -/
def digitsValue (ds : List Char) : Nat :=
  ds.foldl (fun acc c => acc * 10 + (c.toNat - '0'.toNat)) 0

/-- The integer a decimal numeral denotes: a sign `-` if any, then digits. -/
def decimalValue (s : String) : Int :=
  match s.data with
  | '-' :: ds => -(digitsValue ds : Int)
  | ds => (digitsValue ds : Int)

/-! ## Sample inputs -/

/-- A 64-bit platform on which an unrepresentable conversion yields the
smallest `int`, as the x86-64 conversion instruction does. -/
def amd64 : Platform := { wide := true, outOfRange := fun _ => -(2 ^ 63) }

/-- A 64-bit platform on which an unrepresentable conversion saturates and NaN
converts to 0, as the AArch64 conversion instruction does. -/
def arm64 : Platform :=
  { wide := true
    outOfRange := fun x => match x with
      | .finite mant _ => if mant < 0 then -(2 ^ 63) else 2 ^ 63 - 1
      | .inf negative => if negative then -(2 ^ 63) else 2 ^ 63 - 1
      | .nan => 0 }

def lobby : Pelican :=
  { username := "user", password := "secret", name := "Lobby",
    target := "https://site.officeclimatecontrol.net/api.cgi" }

def noon : Clock :=
  { endTime := "2026-01-01T12:00:00Z", startTime := "2026-01-01T11:00:00Z",
    parseInLocation := fun _ => .ok 0, now := 100 }

/-- A reading of a thermostat in first-stage heating whose heat needs no fan. -/
def heatingReading : apiThermostat :=
  { Temperature := .finite 145 (-1), RelHumidity := 40, HeatingSetpoint := 68,
    CoolingSetpoint := 75, SetBy := "Schedule", HeatNeedsFan := "No", System := "Auto",
    RunStatus := "Heat-Stage1", StatusDisplay := "Heating" }

/-- A reading of a thermostat in first-stage cooling, set at the station. -/
def coolingReading : apiThermostat :=
  { Temperature := .finite 145 (-1), RelHumidity := 40, HeatingSetpoint := 68,
    CoolingSetpoint := 75, SetBy := "Station", HeatNeedsFan := "No", System := "Cool",
    RunStatus := "Cool-Stage1", StatusDisplay := "Cooling" }

/-- A reading of a thermostat the vendor cannot reach. -/
def unreachableReading : apiThermostat :=
  { Temperature := .finite 145 (-1), RelHumidity := 40, HeatingSetpoint := 68,
    CoolingSetpoint := 75, SetBy := "Schedule", HeatNeedsFan := "No", System := "Auto",
    RunStatus := "Heat-Stage1", StatusDisplay := "Unreachable" }

/-- A reading whose system mode is a token outside the mode table. -/
def oddModeReading : apiThermostat :=
  { Temperature := .finite 145 (-1), RelHumidity := 40, HeatingSetpoint := 68,
    CoolingSetpoint := 75, SetBy := "Schedule", HeatNeedsFan := "No", System := "Emergency",
    RunStatus := "Off", StatusDisplay := "Idle" }

def sampleUrl : String := "https://site.officeclimatecontrol.net/api.cgi?request=get"

/-- A response that arrived without transport error and decoded to `value`. -/
def okResponse {α : Type} (value : α) : EndResult α :=
  { resp := some { url := sampleUrl, body := .ok value }, errs := none }

/-- The status `GetStatus` derives from `heatingReading` at `noon`. -/
def heatingStatus : PelicanStatus :=
  { Temperature := .finite 145 (-1), RelHumidity := .finite 40 0, HeatingSetpoint := .finite 68 0,
    CoolingSetpoint := .finite 75 0, Override := false, Fan := false, Mode := 3, State := 1,
    Time := 100 }

def oneRecord : apiResultHistory :=
  { Success := 1, Message := "", Records := { Name := "Lobby", History := [⟨"2026-01-01T11:30"⟩] } }

/-- The status `GetStatus` derives from `coolingReading` at `noon`. -/
def coolingStatus : PelicanStatus :=
  { Temperature := .finite 145 (-1), RelHumidity := .finite 40 0, HeatingSetpoint := .finite 68 0,
    CoolingSetpoint := .finite 75 0, Override := true, Fan := true, Mode := 2, State := 2,
    Time := 100 }

/-- The status `GetStatus` derives from `oddModeReading` at `noon`. -/
def oddModeStatus : PelicanStatus :=
  { Temperature := .finite 145 (-1), RelHumidity := .finite 40 0, HeatingSetpoint := .finite 68 0,
    CoolingSetpoint := .finite 75 0, Override := false, Fan := false, Mode := 0, State := 0,
    Time := 100 }

/-- A state request with every field present: mode 1, schedule re-enabled,
fan forced on, setpoints 68.7 and 75.9. -/
def fullRequest : pelicanStateParams :=
  { HeatingSetpoint := some (.finite 4834332725005517 (-46)),
    CoolingSetpoint := some (.finite 2670493841542349 (-45)),
    Override := some (.finite 0 0), Mode := some (.finite 1 0), Fan := some (.finite 1 0) }

/-! ## Lemmas on the tables and on `GetStatus` -/

theorem lookup_cons_ne {k key : String} {v : Int} {m : List (String × Int)} (h : key ≠ k) :
    List.lookup key ((k, v) :: m) = List.lookup key m := by
  have hb : (key == k) = false := by simpa using h
  simp [List.lookup, hb]

theorem thermState_eq (t : apiThermostat) : thermState t = specState t.RunStatus := by
  unfold thermState stateMappings specState
  by_cases h0 : t.RunStatus = "Off"
  · simp [h0, List.lookup]
  by_cases h1 : t.RunStatus = "Heat-Stage1"
  · simp [h1, List.lookup]
  by_cases h2 : t.RunStatus = "Heat-Stage2"
  · simp [h2, List.lookup]
  by_cases h3 : t.RunStatus = "Cool-Stage1"
  · simp [h3, List.lookup]
  by_cases h4 : t.RunStatus = "Cool-Stage2"
  · simp [h4, List.lookup]
  simp [h0, h1, h2, h3, h4, lookup_cons_ne]

theorem modeIndex_eq (sys : String) :
    mapIndex modeNameMappings sys =
      if sys = "Heat" then 1 else if sys = "Cool" then 2 else if sys = "Auto" then 3 else 0 := by
  unfold mapIndex modeNameMappings
  by_cases h0 : sys = "Off"
  · simp [h0, List.lookup]
  by_cases h1 : sys = "Heat"
  · simp [h1, List.lookup]
  by_cases h2 : sys = "Cool"
  · simp [h2, List.lookup]
  by_cases h3 : sys = "Auto"
  · simp [h3, List.lookup]
  simp [h0, h1, h2, h3, lookup_cons_ne]

theorem hasPrefix_iff (s pre : String) :
    HasPrefix s pre = true ↔ ∃ rest : String, s = pre ++ rest := by
  unfold HasPrefix
  rw [List.isPrefixOf_iff_prefix]
  constructor
  · rintro ⟨t, ht⟩
    exact ⟨⟨t⟩, String.ext (by simpa using ht.symm)⟩
  · rintro ⟨rest, rfl⟩
    exact ⟨rest.data, by simp⟩

theorem fanState_spec (t : apiThermostat) : SpecFan t.RunStatus t.HeatNeedsFan (fanState t) := by
  unfold fanState
  refine ⟨fun hp => ?_, fun hp hne => ?_, fun hoff => ?_⟩
  · rw [if_pos ((hasPrefix_iff _ _).mpr hp)]
  · have hn : ¬ HasPrefix t.RunStatus "Heat" = true := fun hc => hp ((hasPrefix_iff _ _).mp hc)
    rw [if_neg hn, if_pos hne]
  · have hn : ¬ HasPrefix t.RunStatus "Heat" = true := by
      rw [hoff]; decide
    rw [if_neg hn, if_neg (by simpa using hoff)]

/-- Whenever `GetStatus` hands back a status, the current reading was decoded,
was marked successful and reachable, and the status is built from it. -/
theorem GetStatus_status {clk : Clock} {pel : Pelican} {cur : EndResult apiResult}
    {hist : EndResult apiResultHistory} {sent : List Event} {st : PelicanStatus}
    {err : Option String}
    (h : GetStatus clk pel cur hist = (sent, .ret (some st, err))) :
    ∃ resp result, cur.errs = none ∧ cur.resp = some resp ∧ resp.body = .ok result ∧
      result.Success ≠ 0 ∧ result.Thermostat.StatusDisplay ≠ "Unreachable" ∧ err = none ∧
      st.Fan = fanState result.Thermostat ∧ st.State = thermState result.Thermostat ∧
      st.Mode = mapIndex modeNameMappings result.Thermostat.System ∧
      st.Override = decide (result.Thermostat.SetBy ≠ "Schedule") := by
  obtain ⟨resp, errs⟩ := cur
  obtain ⟨hresp, herrs⟩ := hist
  cases errs with
  | some e => simp [GetStatus] at h
  | none =>
  cases resp with
  | none => simp [GetStatus] at h
  | some resp =>
  obtain ⟨url, body⟩ := resp
  cases body with
  | error e => simp [GetStatus] at h
  | ok result =>
  by_cases hs : result.Success = 0
  · simp [GetStatus, hs] at h
  by_cases hu : result.Thermostat.StatusDisplay = "Unreachable"
  · simp [GetStatus, hs, hu] at h
  cases hresp with
  | none => simp [GetStatus, hs, hu] at h
  | some respHist =>
  cases herrs with
  | some e => simp [GetStatus, hs, hu] at h
  | none =>
  obtain ⟨hurl, hbody⟩ := respHist
  cases hbody with
  | error e => simp [GetStatus, hs, hu] at h
  | ok histResult =>
  by_cases hhs : histResult.Success = 0
  · simp [GetStatus, hs, hu, hhs] at h
  cases hl : histResult.Records.History.getLast? with
  | none => simp [GetStatus, hs, hu, hhs, hl] at h
  | some last =>
  cases hp : clk.parseInLocation last.TimeStamp with
  | error e => simp [GetStatus, hs, hu, hhs, hl, hp] at h
  | ok ts =>
  simp only [GetStatus, hs, hu, hhs, hl, hp, if_false, Prod.mk.injEq, Outcome.ret.injEq,
    Option.some.injEq] at h
  obtain ⟨-, hst, herr⟩ := h
  subst hst
  exact ⟨_, _, rfl, rfl, rfl, hs, hu, herr.symm, rfl, rfl, rfl, rfl⟩

/-- On the path where both calls succeed and the history has a parsable last
record, `GetStatus` returns a status and no error. -/
theorem GetStatus_reports (clk : Clock) (pel : Pelican) (url hurl : String)
    (result : apiResult) (histResult : apiResultHistory) (last : apiHistory) (ts : Int)
    (hs : result.Success ≠ 0) (hu : result.Thermostat.StatusDisplay ≠ "Unreachable")
    (hhs : histResult.Success ≠ 0) (hl : histResult.Records.History.getLast? = some last)
    (hp : clk.parseInLocation last.TimeStamp = .ok ts) :
    ∃ sent st, GetStatus clk pel ⟨some ⟨url, .ok result⟩, none⟩ ⟨some ⟨hurl, .ok histResult⟩, none⟩
        = (sent, .ret (some st, none)) ∧
      st.Fan = fanState result.Thermostat ∧ st.State = thermState result.Thermostat ∧
      st.Mode = mapIndex modeNameMappings result.Thermostat.System := by
  simp only [GetStatus, hs, hu, hhs, hl, hp, if_false]
  exact ⟨_, _, rfl, rfl, rfl, rfl⟩

/-! ## Status derivation -/

/-- C1. For every decoded reading, the `State` of any status `GetStatus` reports
is 1 when the run status is `Heat-Stage1` or `Heat-Stage2`, 2 when it is
`Cool-Stage1` or `Cool-Stage2`, and 0 for every other string, whatever the
system mode; and when both calls succeed and the last history record parses,
such a status is reported. -/
theorem state_resolution (clk : Clock) (pel : Pelican) (url : String) (result : apiResult)
    (errs : Option String) (hist : EndResult apiResultHistory) :
    (∀ sent st err,
        GetStatus clk pel ⟨some ⟨url, .ok result⟩, errs⟩ hist = (sent, .ret (some st, err)) →
        st.State = specState result.Thermostat.RunStatus) ∧
      (∀ hurl histResult last ts,
        errs = none → hist = ⟨some ⟨hurl, .ok histResult⟩, none⟩ →
        result.Success ≠ 0 → result.Thermostat.StatusDisplay ≠ "Unreachable" →
        histResult.Success ≠ 0 → histResult.Records.History.getLast? = some last →
        clk.parseInLocation last.TimeStamp = .ok ts →
        ∃ sent st,
          GetStatus clk pel ⟨some ⟨url, .ok result⟩, errs⟩ hist = (sent, .ret (some st, none)) ∧
          st.State = specState result.Thermostat.RunStatus) := by
  constructor
  · intro sent st err h
    obtain ⟨resp, result', -, hresp, hbody, -, -, -, -, hstate, -, -⟩ := GetStatus_status h
    simp only [Option.some.injEq] at hresp
    subst hresp
    simp only [Except.ok.injEq] at hbody
    subst hbody
    rw [hstate, thermState_eq]
  · intro hurl histResult last ts herrs hhist hs hu hhs hl hp
    subst herrs hhist
    obtain ⟨sent, st, hget, -, hstate, -⟩ :=
      GetStatus_reports clk pel url hurl result histResult last ts hs hu hhs hl hp
    exact ⟨sent, st, hget, by rw [hstate, thermState_eq]⟩

theorem state_resolution_witness :
    heatingStatus.State = specState heatingReading.RunStatus ∧
      ∃ sent st,
        GetStatus noon lobby ⟨some ⟨sampleUrl, .ok ⟨heatingReading, 1, ""⟩⟩, none⟩
            (okResponse oneRecord) = (sent, .ret (some st, none)) ∧
          st.State = specState heatingReading.RunStatus :=
  ⟨(state_resolution noon lobby sampleUrl ⟨heatingReading, 1, ""⟩ none (okResponse oneRecord)).1
      [.request (statusRequest lobby), .request (historyRequest noon lobby)] heatingStatus none
      (by decide),
    (state_resolution noon lobby sampleUrl ⟨heatingReading, 1, ""⟩ none (okResponse oneRecord)).2
      sampleUrl oneRecord ⟨"2026-01-01T11:30"⟩ 0 rfl rfl (by decide) (by decide) (by decide)
      rfl rfl⟩

/-- C2. For every decoded reading, the `Fan` of any status `GetStatus` reports
equals the test `HeatNeedsFan == "Yes"` when the run status begins with `Heat`,
is true when the run status neither begins with `Heat` nor is `Off`, and is
false when the run status is `Off`; and when both calls succeed and the last
history record parses, such a status is reported. -/
theorem fan_resolution (clk : Clock) (pel : Pelican) (url : String) (result : apiResult)
    (errs : Option String) (hist : EndResult apiResultHistory) :
    (∀ sent st err,
        GetStatus clk pel ⟨some ⟨url, .ok result⟩, errs⟩ hist = (sent, .ret (some st, err)) →
        SpecFan result.Thermostat.RunStatus result.Thermostat.HeatNeedsFan st.Fan) ∧
      (∀ hurl histResult last ts,
        errs = none → hist = ⟨some ⟨hurl, .ok histResult⟩, none⟩ →
        result.Success ≠ 0 → result.Thermostat.StatusDisplay ≠ "Unreachable" →
        histResult.Success ≠ 0 → histResult.Records.History.getLast? = some last →
        clk.parseInLocation last.TimeStamp = .ok ts →
        ∃ sent st,
          GetStatus clk pel ⟨some ⟨url, .ok result⟩, errs⟩ hist = (sent, .ret (some st, none)) ∧
          SpecFan result.Thermostat.RunStatus result.Thermostat.HeatNeedsFan st.Fan) := by
  constructor
  · intro sent st err h
    obtain ⟨resp, result', -, hresp, hbody, -, -, -, hfan, -, -, -⟩ := GetStatus_status h
    simp only [Option.some.injEq] at hresp
    subst hresp
    simp only [Except.ok.injEq] at hbody
    subst hbody
    rw [hfan]
    exact fanState_spec _
  · intro hurl histResult last ts herrs hhist hs hu hhs hl hp
    subst herrs hhist
    obtain ⟨sent, st, hget, hfan, -, -⟩ :=
      GetStatus_reports clk pel url hurl result histResult last ts hs hu hhs hl hp
    exact ⟨sent, st, hget, by rw [hfan]; exact fanState_spec _⟩

theorem fan_resolution_witness :
    SpecFan coolingReading.RunStatus coolingReading.HeatNeedsFan coolingStatus.Fan ∧
      ∃ sent st,
        GetStatus noon lobby ⟨some ⟨sampleUrl, .ok ⟨coolingReading, 1, ""⟩⟩, none⟩
            (okResponse oneRecord) = (sent, .ret (some st, none)) ∧
          SpecFan coolingReading.RunStatus coolingReading.HeatNeedsFan st.Fan :=
  ⟨(fan_resolution noon lobby sampleUrl ⟨coolingReading, 1, ""⟩ none (okResponse oneRecord)).1
      [.request (statusRequest lobby), .request (historyRequest noon lobby)] coolingStatus none
      (by decide),
    (fan_resolution noon lobby sampleUrl ⟨coolingReading, 1, ""⟩ none (okResponse oneRecord)).2
      sampleUrl oneRecord ⟨"2026-01-01T11:30"⟩ 0 rfl rfl (by decide) (by decide) (by decide)
      rfl rfl⟩

/-- C8. When the current reading arrives without transport error, is marked
successful by the vendor and shows `Unreachable`, `GetStatus` sends the status
request only, prints its notice, and returns the nil status with the nil error,
whatever the rest of the reading and whatever the history call would answer. -/
theorem unreachable_sentinel (clk : Clock) (pel : Pelican) (url : String) (result : apiResult)
    (hist : EndResult apiResultHistory) (hs : result.Success ≠ 0)
    (hu : result.Thermostat.StatusDisplay = "Unreachable") :
    GetStatus clk pel ⟨some ⟨url, .ok result⟩, none⟩ hist =
      ([.request (statusRequest pel), .print ("Thermostat " ++ pel.name ++ " is unreachable\n")],
        .ret (none, none)) := by
  simp [GetStatus, hs, hu]

theorem unreachable_sentinel_witness :
    (⟨unreachableReading, 1, ""⟩ : apiResult).Success ≠ 0 ∧
      unreachableReading.StatusDisplay = "Unreachable" ∧
      GetStatus noon lobby ⟨some ⟨sampleUrl, .ok ⟨unreachableReading, 1, ""⟩⟩, none⟩
          (okResponse oneRecord) =
        ([.request (statusRequest lobby), .print "Thermostat Lobby is unreachable\n"],
          .ret (none, none)) :=
  ⟨by decide, by decide,
    unreachable_sentinel noon lobby sampleUrl ⟨unreachableReading, 1, ""⟩ (okResponse oneRecord)
      (by decide) (by decide)⟩

/-- C9. A decoded current reading with `success == 0` makes `GetStatus` return no
status and the error `Error retrieving thermostat status from <url>: <message>`
after the status request alone, also when the reading shows `Unreachable`; a
decoded history answer with `success == 0`, asked for after a successful
reachable reading, makes it return no status and the same error text with the
history message. -/
theorem vendor_failure (clk : Clock) (pel : Pelican) (url hurl : String) (result : apiResult)
    (histResult : apiResultHistory) (hist : EndResult apiResultHistory) :
    (result.Success = 0 →
        GetStatus clk pel ⟨some ⟨url, .ok result⟩, none⟩ hist =
          ([.request (statusRequest pel)],
            .ret (none, some ("Error retrieving thermostat status from " ++ url ++ ": " ++
              result.Message)))) ∧
      (result.Success ≠ 0 → result.Thermostat.StatusDisplay ≠ "Unreachable" →
        histResult.Success = 0 →
        GetStatus clk pel ⟨some ⟨url, .ok result⟩, none⟩ ⟨some ⟨hurl, .ok histResult⟩, none⟩ =
          ([.request (statusRequest pel), .request (historyRequest clk pel)],
            .ret (none, some ("Error retrieving thermostat status from " ++ hurl ++ ": " ++
              histResult.Message)))) := by
  refine ⟨fun hs => ?_, fun hs hu hhs => ?_⟩
  · simp [GetStatus, hs]
  · simp [GetStatus, hs, hu, hhs]

theorem vendor_failure_witness :
    GetStatus noon lobby ⟨some ⟨sampleUrl, .ok ⟨unreachableReading, 0, "bad session"⟩⟩, none⟩
          (okResponse oneRecord) =
        ([.request (statusRequest lobby)],
          .ret (none, some ("Error retrieving thermostat status from " ++ sampleUrl ++
            ": bad session"))) ∧
      GetStatus noon lobby ⟨some ⟨sampleUrl, .ok ⟨heatingReading, 1, ""⟩⟩, none⟩
          ⟨some ⟨sampleUrl, .ok ⟨0, "bad session", ⟨"Lobby", []⟩⟩⟩, none⟩ =
        ([.request (statusRequest lobby), .request (historyRequest noon lobby)],
          .ret (none, some ("Error retrieving thermostat status from " ++ sampleUrl ++
            ": bad session"))) :=
  ⟨(vendor_failure noon lobby sampleUrl sampleUrl ⟨unreachableReading, 0, "bad session"⟩
      ⟨0, "bad session", ⟨"Lobby", []⟩⟩ (okResponse oneRecord)).1 (by decide),
    (vendor_failure noon lobby sampleUrl sampleUrl ⟨heatingReading, 1, ""⟩
      ⟨0, "bad session", ⟨"Lobby", []⟩⟩ (okResponse oneRecord)).2 (by decide) (by decide)
      (by decide)⟩

/-- C10. Every status `GetStatus` returns has `State` in {0, 1, 2} and `Mode` in
{0, 1, 2, 3}; and on the path where both calls succeed, a system-mode token
other than `Off`, `Heat`, `Cool`, `Auto` yields a status with `Mode` 0 and the
nil error. -/
theorem closed_ranges (clk : Clock) (pel : Pelican) (cur : EndResult apiResult)
    (hist : EndResult apiResultHistory) :
    (∀ sent st err, GetStatus clk pel cur hist = (sent, .ret (some st, err)) →
        (st.State = 0 ∨ st.State = 1 ∨ st.State = 2) ∧
        (st.Mode = 0 ∨ st.Mode = 1 ∨ st.Mode = 2 ∨ st.Mode = 3)) ∧
      (∀ url hurl result histResult last ts,
        cur = ⟨some ⟨url, .ok result⟩, none⟩ → hist = ⟨some ⟨hurl, .ok histResult⟩, none⟩ →
        result.Success ≠ 0 → result.Thermostat.StatusDisplay ≠ "Unreachable" →
        histResult.Success ≠ 0 → histResult.Records.History.getLast? = some last →
        clk.parseInLocation last.TimeStamp = .ok ts →
        result.Thermostat.System ∉ ["Off", "Heat", "Cool", "Auto"] →
        ∃ sent st, GetStatus clk pel cur hist = (sent, .ret (some st, none)) ∧ st.Mode = 0) := by
  constructor
  · intro sent st err h
    obtain ⟨resp, result, -, -, -, -, -, -, -, hstate, hmode, -⟩ := GetStatus_status h
    rw [hstate, hmode, thermState_eq, modeIndex_eq]
    unfold specState
    constructor
    · split_ifs <;> simp
    · split_ifs <;> simp
  · intro url hurl result histResult last ts hcur hhist hs hu hhs hl hp hsys
    subst hcur hhist
    obtain ⟨sent, st, hget, -, -, hmode⟩ :=
      GetStatus_reports clk pel url hurl result histResult last ts hs hu hhs hl hp
    refine ⟨sent, st, hget, ?_⟩
    rw [hmode, modeIndex_eq]
    simp only [List.mem_cons, List.mem_singleton, List.not_mem_nil, or_false, not_or] at hsys
    simp [hsys.2.1, hsys.2.2.1, hsys.2.2.2]

theorem closed_ranges_witness :
    ((oddModeStatus.State = 0 ∨ oddModeStatus.State = 1 ∨ oddModeStatus.State = 2) ∧
        (oddModeStatus.Mode = 0 ∨ oddModeStatus.Mode = 1 ∨ oddModeStatus.Mode = 2 ∨
          oddModeStatus.Mode = 3)) ∧
      ∃ sent st, GetStatus noon lobby (okResponse ⟨oddModeReading, 1, ""⟩) (okResponse oneRecord) =
        (sent, .ret (some st, none)) ∧ st.Mode = 0 :=
  ⟨(closed_ranges noon lobby (okResponse ⟨oddModeReading, 1, ""⟩) (okResponse oneRecord)).1
      [.request (statusRequest lobby), .request (historyRequest noon lobby)] oddModeStatus none
      (by decide),
    (closed_ranges noon lobby (okResponse ⟨oddModeReading, 1, ""⟩) (okResponse oneRecord)).2
      sampleUrl sampleUrl ⟨oddModeReading, 1, ""⟩ oneRecord ⟨"2026-01-01T11:30"⟩ 0 rfl rfl
      (by decide) (by decide) (by decide) rfl rfl (by decide)⟩

/-! ## Command encoding -/

/-- Every 32-bit integer is a value of `int`. -/
theorem fits_int32 (p : Platform) (n : Int) (hlo : -2147483648 ≤ n) (hhi : n < 2147483648) :
    p.fits n = true := by
  obtain ⟨wide, oor⟩ := p
  cases wide <;> simp [Platform.fits, Platform.intBits] <;> omega

theorem toInt_finite (p : Platform) (mant exp : Int)
    (hfit : p.fits (Float64.trunc mant exp) = true) :
    p.toInt (.finite mant exp) = Float64.trunc mant exp := by
  simp [Platform.toInt, hfit]

theorem key_colon (x : String) :
    "system" ++ (":" ++ x) = "system:" ++ x ∧ "schedule" ++ (":" ++ x) = "schedule:" ++ x ∧
      "fan" ++ (":" ++ x) = "fan:" ++ x ∧ "heatSetting" ++ (":" ++ x) = "heatSetting:" ++ x ∧
      "coolSetting" ++ (":" ++ x) = "coolSetting:" ++ x := by
  refine ⟨?_, ?_, ?_, ?_, ?_⟩ <;> rw [← String.append_assoc] <;> rfl

theorem stateValue_ok (p : Platform) (params : pelicanStateParams)
    (hmode : ∀ m, params.Mode = some m → 0 ≤ p.toInt m ∧ p.toInt m ≤ 3) :
    stateValue p params = .ok (specValueClause (stateFields p params)) := by
  obtain ⟨heat, cool, ov, mode, fan⟩ := params
  have hm : ∀ m, mode = some m → ¬ (p.toInt m < 0 ∨ p.toInt m > 3) := by
    intro m hm
    have := hmode m hm
    omega
  cases mode with
  | none =>
    cases ov <;> cases fan <;> cases heat <;> cases cool <;>
      simp [stateValue, specValueClause, stateFields, String.join, String.append_assoc, key_colon]
  | some m =>
    have hm' := hm m rfl
    cases ov <;> cases fan <;> cases heat <;> cases cool <;>
      simp [stateValue, specValueClause, stateFields, String.join, String.append_assoc, hm',
        key_colon]

theorem stateValue_error (p : Platform) (params : pelicanStateParams) (m : Float64)
    (hm : params.Mode = some m) (hout : p.toInt m < 0 ∨ 3 < p.toInt m) :
    stateValue p params =
      .error ("Specified thermostat mode " ++ formatInt (p.toInt m) ++ " is invalid") := by
  obtain ⟨heat, cool, ov, mode, fan⟩ := params
  simp only at hm
  subst hm
  have : p.toInt m < 0 ∨ p.toInt m > 3 := hout
  simp [stateValue, this]

theorem ModifyState_sent (p : Platform) (pel : Pelican) (params : pelicanStateParams)
    (end_ : EndResult apiResult) (value : String) (h : stateValue p params = .ok value) :
    (ModifyState p pel params end_).1 = [.request (setRequest pel value)] := by
  obtain ⟨resp, errs⟩ := end_
  unfold ModifyState
  rw [h]
  cases errs <;> cases resp <;> simp
  rename_i r
  obtain ⟨url, body⟩ := r
  cases body <;> simp
  split_ifs <;> rfl

/-- A character that is no decimal digit does not occur among the digits
`Nat.toDigitsCore` produces. -/
theorem toDigitsCore_not_mem (c : Char) (hc : ∀ k < 10, Nat.digitChar k ≠ c) (fuel : Nat) :
    ∀ (n : Nat) (ds : List Char), c ∉ ds → c ∉ Nat.toDigitsCore 10 fuel n ds := by
  induction fuel with
  | zero => intro n ds h; simpa [Nat.toDigitsCore] using h
  | succ fuel ih =>
    intro n ds h
    have hd : c ∉ Nat.digitChar (n % 10) :: ds := by
      intro hmem
      rcases List.mem_cons.mp hmem with hmem | hmem
      · exact hc (n % 10) (Nat.mod_lt _ (by decide)) hmem.symm
      · exact h hmem
    simp only [Nat.toDigitsCore]
    split_ifs
    · exact hd
    · exact ih _ _ hd

theorem repr_not_mem (c : Char) (hc : ∀ k < 10, Nat.digitChar k ≠ c) (n : Nat) :
    c ∉ (Nat.repr n).data := by
  simp only [Nat.repr, Nat.toDigits, List.asString]
  exact toDigitsCore_not_mem c hc _ _ _ (by simp)

theorem digitChar_ne_d (k : Nat) (hk : k < 10) : Nat.digitChar k ≠ 'd' := by
  interval_cases k <;> decide

theorem digitChar_ne_minus (k : Nat) (hk : k < 10) : Nat.digitChar k ≠ '-' := by
  interval_cases k <;> decide

theorem formatInt_no_d (n : Int) : 'd' ∉ (formatInt n).data := by
  unfold formatInt
  split_ifs
  · simp only [String.data_append, List.mem_append, not_or]
    exact ⟨by decide, repr_not_mem _ digitChar_ne_d _⟩
  · exact repr_not_mem _ digitChar_ne_d _

theorem digitChar_value (k : Nat) (hk : k < 10) : (Nat.digitChar k).toNat - '0'.toNat = k := by
  interval_cases k <;> rfl

theorem toDigitsCore_value (fuel : Nat) : ∀ (n : Nat) (ds : List Char), n < fuel →
    (Nat.toDigitsCore 10 fuel n ds).foldl (fun acc c => acc * 10 + (c.toNat - '0'.toNat)) 0 =
      ds.foldl (fun acc c => acc * 10 + (c.toNat - '0'.toNat)) n := by
  induction fuel with
  | zero => intro n ds h; omega
  | succ fuel ih =>
    intro n ds h
    have hd := digitChar_value (n % 10) (Nat.mod_lt _ (by decide))
    simp only [Nat.toDigitsCore]
    split_ifs with h0
    · have hn : n % 10 = n := by omega
      rw [List.foldl_cons, hd, hn, Nat.zero_mul, Nat.zero_add]
    · rw [ih (n / 10) _ (by omega), List.foldl_cons, hd]
      congr 1
      omega

theorem digitsValue_repr (n : Nat) : digitsValue (Nat.repr n).data = n := by
  simp only [digitsValue, Nat.repr, Nat.toDigits, List.asString]
  rw [toDigitsCore_value _ _ _ (Nat.lt_succ_self n)]
  rfl

/-- Reading back what `%d` writes gives the integer written. -/
theorem decimalValue_formatInt (n : Int) : decimalValue (formatInt n) = n := by
  unfold formatInt
  split_ifs with hn
  · have hdata : ("-" ++ Nat.repr n.natAbs).data = '-' :: (Nat.repr n.natAbs).data := rfl
    simp only [decimalValue, hdata, digitsValue_repr]
    omega
  · have hmem := repr_not_mem _ digitChar_ne_minus n.natAbs
    have hval := digitsValue_repr n.natAbs
    unfold decimalValue
    split
    · rename_i ds heq
      rw [heq] at hmem
      exact absurd (List.mem_cons_self _ _) hmem
    · rw [hval]
      omega

theorem modeVal_no_d (k : Nat) : 'd' ∉ (modeValMappings.getD k "").data := by
  unfold modeValMappings
  match k with
  | 0 => decide
  | 1 => decide
  | 2 => decide
  | 3 => decide
  | k + 4 => simp


theorem foldl_append_init (l : List String) (acc : String) :
    l.foldl (fun r s => r ++ s) acc = acc ++ l.foldl (fun r s => r ++ s) "" := by
  induction l generalizing acc with
  | nil => simp
  | cons s l ih =>
    simp only [List.foldl_cons, String.empty_append]
    rw [ih (acc ++ s), ih s, String.append_assoc]

theorem specValueClause_cons (kv : String × Option String) (rest : List (String × Option String)) :
    specValueClause (kv :: rest) = specValueClause [kv] ++ specValueClause rest := by
  obtain ⟨k, v⟩ := kv
  cases v with
  | none => simp [specValueClause, String.join]
  | some v =>
    simp only [specValueClause, String.join, List.filterMap_cons, Option.map_some',
      List.filterMap_nil, List.foldl_cons, List.foldl_nil, String.empty_append]
    exact foldl_append_init _ _

theorem specValueClause_no_d (fields : List (String × Option String))
    (h : ∀ kv ∈ fields, 'd' ∉ kv.1.data ∧ ∀ v, kv.2 = some v → 'd' ∉ v.data) :
    'd' ∉ (specValueClause fields).data := by
  induction fields with
  | nil => simp [specValueClause, String.join]
  | cons kv rest ih =>
    rw [specValueClause_cons, String.data_append, List.mem_append, not_or]
    refine ⟨?_, ih fun kv hkv => h kv (List.mem_cons_of_mem _ hkv)⟩
    obtain ⟨hk, hv⟩ := h kv (List.mem_cons_self _ _)
    obtain ⟨k, v⟩ := kv
    cases v with
    | none => simp [specValueClause, String.join]
    | some v =>
      have hv' := hv v rfl
      simp only [specValueClause, String.join, List.filterMap_cons, Option.map_some',
        List.filterMap_nil, List.foldl_cons, List.foldl_nil, String.empty_append,
        String.data_append, List.mem_append, not_or]
      exact ⟨⟨⟨hk, by decide⟩, hv'⟩, by decide⟩


theorem stateValue_inv (p : Platform) (params : pelicanStateParams) (value : String)
    (h : stateValue p params = .ok value) :
    (∀ m, params.Mode = some m → 0 ≤ p.toInt m ∧ p.toInt m ≤ 3) ∧
      value = specValueClause (stateFields p params) := by
  have hmode : ∀ m, params.Mode = some m → 0 ≤ p.toInt m ∧ p.toInt m ≤ 3 := by
    intro m hm
    by_contra hc
    have hout : p.toInt m < 0 ∨ 3 < p.toInt m := by omega
    rw [stateValue_error p params m hm hout] at h
    cases h
  refine ⟨hmode, ?_⟩
  rw [stateValue_ok p params hmode] at h
  exact (Except.ok.inj h).symm

/-- The clause of a request with an override: a part without the letter `d`,
the schedule pair, a part without the letter `d`. -/
theorem stateValue_schedule (p : Platform) (params : pelicanStateParams) (o : Float64)
    (value : String) (ho : params.Override = some o) (h : stateValue p params = .ok value) :
    ∃ A B : List Char, 'd' ∉ A ∧ 'd' ∉ B ∧
      value.data = A ++ ("schedule:" ++ (if o.eqOne then "Off" else "On") ++ ";").data ++ B := by
  obtain ⟨-, hv⟩ := stateValue_inv p params value h
  obtain ⟨heat, cool, ov, mode, fan⟩ := params
  simp only at ho
  subst ho
  refine ⟨(specValueClause [("system", mode.map fun m => modeValMappings.getD (p.toInt m).toNat "")]).data,
    (specValueClause [("fan", fan.map fun f => if f.eqOne then "On" else "Auto"),
      ("heatSetting", heat.map fun x => formatInt (p.toInt x)),
      ("coolSetting", cool.map fun x => formatInt (p.toInt x))]).data, ?_, ?_, ?_⟩
  · apply specValueClause_no_d
    intro kv hkv
    simp only [List.mem_singleton] at hkv
    subst hkv
    refine ⟨by show 'd' ∉ ("system" : String).data; decide, fun v hv => ?_⟩
    cases mode with
    | none => simp at hv
    | some m =>
      simp only [Option.map_some', Option.some.injEq] at hv
      subst hv
      exact modeVal_no_d _
  · apply specValueClause_no_d
    intro kv hkv
    simp only [List.mem_cons, List.mem_singleton, List.not_mem_nil, or_false] at hkv
    rcases hkv with rfl | rfl | rfl
    · refine ⟨by show 'd' ∉ ("fan" : String).data; decide, fun v hv => ?_⟩
      cases fan with
      | none => simp at hv
      | some f =>
        simp only [Option.map_some', Option.some.injEq] at hv
        subst hv
        split_ifs <;> decide
    · refine ⟨by show 'd' ∉ ("heatSetting" : String).data; decide, fun v hv => ?_⟩
      cases heat with
      | none => simp at hv
      | some x =>
        simp only [Option.map_some', Option.some.injEq] at hv
        subst hv
        exact formatInt_no_d _
    · refine ⟨by show 'd' ∉ ("coolSetting" : String).data; decide, fun v hv => ?_⟩
      cases cool with
      | none => simp at hv
      | some x =>
        simp only [Option.map_some', Option.some.injEq] at hv
        subst hv
        exact formatInt_no_d _
  · rw [hv]
    unfold stateFields
    rw [specValueClause_cons, specValueClause_cons _ (_ :: _)]
    simp only [String.data_append, Option.map_some', List.append_assoc]
    congr 1
    simp [specValueClause, String.join, (key_colon _).2.1]

theorem schedule_tokens_exclusive (A B X Y : List Char) (hA : 'd' ∉ A) (hB : 'd' ∉ B) :
    A ++ "schedule:Off;".data ++ B ≠ X ++ "schedule:On;".data ++ Y ∧
      A ++ "schedule:On;".data ++ B ≠ X ++ "schedule:Off;".data ++ Y := by
  constructor
  · intro h
    have h' : (A ++ ['s', 'c', 'h', 'e']) ++ 'd' :: (['u', 'l', 'e', ':', 'O', 'f', 'f', ';'] ++ B) =
        (X ++ ['s', 'c', 'h', 'e']) ++ 'd' :: (['u', 'l', 'e', ':', 'O', 'n', ';'] ++ Y) := by
      simpa using h
    have hx : 'd' ∉ A ++ ['s', 'c', 'h', 'e'] := by
      simp only [List.mem_append, not_or]; exact ⟨hA, by decide⟩
    have hz : 'd' ∉ ['u', 'l', 'e', ':', 'O', 'f', 'f', ';'] ++ B := by
      simp only [List.mem_append, not_or]; exact ⟨by decide, hB⟩
    have := ((List.append_cons_inj_of_not_mem hx hz).mp h').2.2
    simp at this
  · intro h
    have h' : (A ++ ['s', 'c', 'h', 'e']) ++ 'd' :: (['u', 'l', 'e', ':', 'O', 'n', ';'] ++ B) =
        (X ++ ['s', 'c', 'h', 'e']) ++ 'd' :: (['u', 'l', 'e', ':', 'O', 'f', 'f', ';'] ++ Y) := by
      simpa using h
    have hx : 'd' ∉ A ++ ['s', 'c', 'h', 'e'] := by
      simp only [List.mem_append, not_or]; exact ⟨hA, by decide⟩
    have hz : 'd' ∉ ['u', 'l', 'e', ':', 'O', 'n', ';'] ++ B := by
      simp only [List.mem_append, not_or]; exact ⟨by decide, hB⟩
    have := ((List.append_cons_inj_of_not_mem hx hz).mp h').2.2
    simp at this

theorem ModifyState_sent_inv (p : Platform) (pel : Pelican) (params : pelicanStateParams)
    (end_ : EndResult apiResult) (value : String)
    (h : (ModifyState p pel params end_).1 = [.request (setRequest pel value)]) :
    stateValue p params = .ok value := by
  cases hv : stateValue p params with
  | error e => simp [ModifyState, hv] at h
  | ok v =>
    rw [ModifyState_sent p pel params end_ v hv] at h
    simp only [setRequest, List.cons.injEq, Event.request.injEq, Request.mk.injEq, Prod.mk.injEq,
      and_true, true_and] at h
    rw [h]

/-- C6. In every request `ModifyState` sends for parameters with an override, the
value clause contains `schedule:Off;` when the override equals 1 (true) and
`schedule:On;` when it does not (0, false, in particular), and never both. -/
theorem override_inversion (p : Platform) (pel : Pelican) (params : pelicanStateParams)
    (end_ : EndResult apiResult) (o : Float64) (value : String)
    (ho : params.Override = some o)
    (hsent : (ModifyState p pel params end_).1 = [.request (setRequest pel value)]) :
    (o.eqOne = true → Contains value "schedule:Off;") ∧
      (o.eqOne = false → Contains value "schedule:On;") ∧
      ¬ (Contains value "schedule:Off;" ∧ Contains value "schedule:On;") := by
  have hv := ModifyState_sent_inv p pel params end_ value hsent
  obtain ⟨A, B, hA, hB, hdata⟩ := stateValue_schedule p params o value ho hv
  unfold Contains
  cases ho1 : o.eqOne with
  | true =>
    have hd : value.data = A ++ "schedule:Off;".data ++ B := by
      rw [hdata, ho1]; rfl
    refine ⟨fun _ => ⟨A, B, hd.symm⟩, fun hc => absurd hc (by decide), ?_⟩
    rintro ⟨-, X, Y, hXY⟩
    exact (schedule_tokens_exclusive A B X Y hA hB).1 (hd.symm.trans hXY.symm)
  | false =>
    have hd : value.data = A ++ "schedule:On;".data ++ B := by
      rw [hdata, ho1]; rfl
    refine ⟨fun hc => absurd hc (by decide), fun _ => ⟨A, B, hd.symm⟩, ?_⟩
    rintro ⟨⟨X, Y, hXY⟩, -⟩
    exact (schedule_tokens_exclusive A B X Y hA hB).2 (hd.symm.trans hXY.symm)

theorem override_inversion_witness :
    ((ModifyState amd64 lobby ⟨none, none, some (.finite 1 0), some (.finite 3 0), none⟩
          (okResponse ⟨heatingReading, 1, ""⟩)).1 =
        [.request (setRequest lobby "system:Auto;schedule:Off;")] ∧
      ((Float64.finite 1 0).eqOne = true → Contains "system:Auto;schedule:Off;" "schedule:Off;") ∧
      ((Float64.finite 1 0).eqOne = false → Contains "system:Auto;schedule:Off;" "schedule:On;") ∧
      ¬ (Contains "system:Auto;schedule:Off;" "schedule:Off;" ∧
        Contains "system:Auto;schedule:Off;" "schedule:On;")) ∧
      ((Float64.finite 0 0).eqOne = false ∧
        Contains "system:Heat;schedule:On;fan:On;heatSetting:68;coolSetting:75;" "schedule:On;") :=
  ⟨⟨by decide,
      override_inversion amd64 lobby ⟨none, none, some (.finite 1 0), some (.finite 3 0), none⟩
        (okResponse ⟨heatingReading, 1, ""⟩) (.finite 1 0) "system:Auto;schedule:Off;" rfl
        (by decide)⟩,
    by decide,
    (override_inversion amd64 lobby fullRequest (okResponse ⟨heatingReading, 1, ""⟩) (.finite 0 0)
      "system:Heat;schedule:On;fan:On;heatSetting:68;coolSetting:75;" rfl (by decide)).2.1
      (by decide)⟩

/-- C3, as the driver has it. When the requested mode converts to an `int`
(its value truncated toward zero) outside [0, 3], `ModifyState` sends nothing
and returns the error naming that integer, whatever the other fields and
whatever the transport would answer. -/
theorem invalid_mode_rejected (p : Platform) (pel : Pelican) (params : pelicanStateParams)
    (end_ : EndResult apiResult) (m : Float64) (hm : params.Mode = some m)
    (hout : p.toInt m < 0 ∨ 3 < p.toInt m) :
    ModifyState p pel params end_ =
      ([], .ret (some ("Specified thermostat mode " ++ formatInt (p.toInt m) ++ " is invalid"))) := by
  unfold ModifyState
  rw [stateValue_error p params m hm hout]

theorem invalid_mode_rejected_witness :
    ModifyState amd64 lobby ⟨some (.finite 68 0), none, some (.finite 1 0), some (.finite 4 0), none⟩
          (okResponse ⟨heatingReading, 1, ""⟩) =
        ([], .ret (some "Specified thermostat mode 4 is invalid")) ∧
      ModifyState amd64 lobby ⟨none, none, none, some (.finite (-1) 0), none⟩
          (okResponse ⟨heatingReading, 1, ""⟩) =
        ([], .ret (some "Specified thermostat mode -1 is invalid")) :=
  ⟨invalid_mode_rejected amd64 lobby
      ⟨some (.finite 68 0), none, some (.finite 1 0), some (.finite 4 0), none⟩
      (okResponse ⟨heatingReading, 1, ""⟩) (.finite 4 0) rfl (by decide),
    invalid_mode_rejected amd64 lobby ⟨none, none, none, some (.finite (-1) 0), none⟩
      (okResponse ⟨heatingReading, 1, ""⟩) (.finite (-1) 0) rfl (by decide)⟩

/-- C3 as stated fails: the mode 3.5 (`7 * 2 ^ (-1)`) is greater than 3, yet
`ModifyState` truncates it to 3, sends `system:Auto;` and returns no error. -/
theorem invalid_mode_counterexample :
    (Float64.finite 7 (-1)).gtInt 3 = true ∧
      ModifyState amd64 lobby ⟨none, none, none, some (.finite 7 (-1)), none⟩
          (okResponse ⟨heatingReading, 1, ""⟩) =
        ([.request (setRequest lobby "system:Auto;")], .ret none) := by
  decide

/-- C4. For every mode `m` in {0, 1, 2, 3}, `ModifyState` builds `system:<token>;`
with `<token>` the entry `m` of `modeValMappings`, and `GetStatus`'s table
`modeNameMappings` maps that token back to `m`; conversely each of `Off`,
`Heat`, `Cool`, `Auto` is mapped by `modeNameMappings` to a mode whose entry in
`modeValMappings` is that token. -/
theorem mode_round_trip (p : Platform) (m : Nat) (hm : m < 4) :
    (stateValue p ⟨none, none, none, some (.finite m 0), none⟩ =
          .ok ("system:" ++ modeValMappings.getD m "" ++ ";") ∧
        mapIndex modeNameMappings (modeValMappings.getD m "") = m) ∧
      (∀ token ∈ ["Off", "Heat", "Cool", "Auto"],
        modeValMappings.getD (mapIndex modeNameMappings token).toNat "" = token) := by
  have htrunc : Float64.trunc m 0 = m := by simp [Float64.trunc]
  have hconv : p.toInt (.finite m 0) = m := by
    rw [toInt_finite p m 0 (by rw [htrunc]; exact fits_int32 p m (by omega) (by omega)), htrunc]
  refine ⟨⟨?_, ?_⟩, by decide⟩
  · rw [stateValue_ok p _ (by intro x hx; cases hx; rw [hconv]; omega)]
    simp [specValueClause, stateFields, String.join, String.append_assoc, key_colon, hconv]
  · interval_cases m <;> decide

theorem mode_round_trip_witness :
    (stateValue amd64 ⟨none, none, none, some (.finite 2 0), none⟩ = .ok "system:Cool;" ∧
        mapIndex modeNameMappings "Cool" = 2) ∧
      (∀ token ∈ ["Off", "Heat", "Cool", "Auto"],
        modeValMappings.getD (mapIndex modeNameMappings token).toNat "" = token) :=
  mode_round_trip amd64 2 (by decide)

/-- C5. For every request whose mode is absent or converts to an `int` in
[0, 3], `ModifyState` sends exactly one request, whose value clause is the
concatenation, in the order mode, override, fan, heating setpoint, cooling
setpoint, of the pair `key:value;` of each present field (keys `system`,
`schedule`, `fan`, `heatSetting`, `coolSetting`) and of nothing for an absent
one; with no field present the clause is empty, the request is sent all the
same, and a successful vendor answer yields no error. -/
theorem value_clause (p : Platform) (pel : Pelican) (params : pelicanStateParams)
    (end_ : EndResult apiResult)
    (hmode : ∀ m, params.Mode = some m → 0 ≤ p.toInt m ∧ p.toInt m ≤ 3) :
    (ModifyState p pel params end_).1 =
        [.request (setRequest pel (specValueClause
          [("system", params.Mode.map fun m => modeValMappings.getD (p.toInt m).toNat ""),
            ("schedule", params.Override.map fun o => if o.eqOne then "Off" else "On"),
            ("fan", params.Fan.map fun f => if f.eqOne then "On" else "Auto"),
            ("heatSetting", params.HeatingSetpoint.map fun x => formatInt (p.toInt x)),
            ("coolSetting", params.CoolingSetpoint.map fun x => formatInt (p.toInt x))]))] ∧
      (ModifyState p pel ⟨none, none, none, none, none⟩ end_).1 = [.request (setRequest pel "")] ∧
      (∀ url result, result.Success ≠ 0 →
        ModifyState p pel ⟨none, none, none, none, none⟩ ⟨some ⟨url, .ok result⟩, none⟩ =
          ([.request (setRequest pel "")], .ret none)) := by
  refine ⟨?_, ?_, ?_⟩
  · exact ModifyState_sent p pel params end_ _ (stateValue_ok p params hmode)
  · exact ModifyState_sent p pel _ end_ _ rfl
  · intro url result hs
    simp [ModifyState, stateValue, hs]

theorem value_clause_witness :
    (ModifyState amd64 lobby fullRequest (okResponse ⟨heatingReading, 1, ""⟩)).1 =
        [.request (setRequest lobby "system:Heat;schedule:On;fan:On;heatSetting:68;coolSetting:75;")] ∧
      (ModifyState amd64 lobby ⟨none, none, none, none, none⟩
          (okResponse ⟨heatingReading, 1, ""⟩)).1 = [.request (setRequest lobby "")] ∧
      (∀ url result, result.Success ≠ 0 →
        ModifyState amd64 lobby ⟨none, none, none, none, none⟩ ⟨some ⟨url, .ok result⟩, none⟩ =
          ([.request (setRequest lobby "")], .ret none)) :=
  value_clause amd64 lobby fullRequest (okResponse ⟨heatingReading, 1, ""⟩)
    (by intro m hm; cases hm; decide)

theorem tdiv_bracket (m d : Int) (hm : 0 ≤ m) (hd : 0 < d) :
    0 ≤ m.tdiv d ∧ m.tdiv d * d ≤ m ∧ m < (m.tdiv d + 1) * d := by
  have h1 := Int.tdiv_add_tmod m d
  have h2 := Int.tmod_nonneg d hm
  have h3 := Int.tmod_lt_of_pos m hd
  exact ⟨Int.tdiv_nonneg hm hd.le, by nlinarith, by nlinarith⟩

/-- Truncation drops the fraction and never rounds: for a negative exponent,
with `d = 2 ^ (-exp)`, the truncation `t` of `mant / d` has the sign of `mant`
and satisfies `|t| * d ≤ |mant| < (|t| + 1) * d`. -/
theorem trunc_toward_zero (mant exp : Int) (hexp : exp < 0) :
    |Float64.trunc mant exp| * 2 ^ (-exp).toNat ≤ |mant| ∧
      |mant| < (|Float64.trunc mant exp| + 1) * 2 ^ (-exp).toNat ∧
      0 ≤ Float64.trunc mant exp * mant := by
  have hne : ¬ 0 ≤ exp := by omega
  simp only [Float64.trunc, hne, if_false]
  generalize (-exp).toNat = k
  have hd : (0 : Int) < 2 ^ k := by positivity
  generalize (2 : Int) ^ k = d at hd
  rcases le_total 0 mant with hm | hm
  · obtain ⟨h4, h5, h6⟩ := tdiv_bracket mant d hm hd
    rw [abs_of_nonneg h4, abs_of_nonneg hm]
    exact ⟨h5, h6, by positivity⟩
  · obtain ⟨h4, h5, h6⟩ := tdiv_bracket (-mant) d (by omega) hd
    have hq : mant.tdiv d = -((-mant).tdiv d) := by
      rw [Int.neg_tdiv, neg_neg]
    rw [hq, abs_neg, abs_of_nonneg h4, abs_of_nonpos hm]
    refine ⟨h5, h6, ?_⟩
    have : 0 ≤ (-mant).tdiv d * (-mant) := mul_nonneg h4 (by omega)
    linarith

theorem ModifySetpoints_sent (p : Platform) (pel : Pelican) (setpoints : setpointsMsg)
    (end_ : EndResult apiResult) :
    (ModifySetpoints p pel setpoints end_).1 =
      [.request (setRequest pel (setpointsValue p setpoints))] := by
  obtain ⟨resp, errs⟩ := end_
  unfold ModifySetpoints
  cases errs <;> cases resp <;> simp
  rename_i r
  obtain ⟨url, body⟩ := r
  cases body <;> simp
  split_ifs <;> rfl

/-- C7, as the driver has it. For a finite setpoint `mant * 2 ^ exp` whose
truncation toward zero `n` is a value of `int`, the pair written is
`heatSetting:<n>;` (resp. `coolSetting:<n>;`) with `n` a decimal numeral that
reads back as `n`: in `ModifySetpoints` the clause is the heating pair followed
by the cooling pair, and in `ModifyState` it is the clause of the other fields,
then the heating pair, then the cooling pair. -/
theorem setpoint_truncation (p : Platform) (pel : Pelican) (end_ : EndResult apiResult)
    (mant exp : Int) (hfit : p.fits (Float64.trunc mant exp) = true) :
    decimalValue (formatInt (Float64.trunc mant exp)) = Float64.trunc mant exp ∧
      (∀ cool, (ModifySetpoints p pel ⟨some (.finite mant exp), cool⟩ end_).1 =
        [.request (setRequest pel (("heatSetting:" ++ formatInt (Float64.trunc mant exp) ++ ";") ++
          setpointsValue p ⟨none, cool⟩))]) ∧
      (∀ heat, (ModifySetpoints p pel ⟨heat, some (.finite mant exp)⟩ end_).1 =
        [.request (setRequest pel (setpointsValue p ⟨heat, none⟩ ++
          ("coolSetting:" ++ formatInt (Float64.trunc mant exp) ++ ";")))]) ∧
      (∀ cool override mode fan others,
        stateValue p ⟨none, none, override, mode, fan⟩ = .ok others →
        (ModifyState p pel ⟨some (.finite mant exp), cool, override, mode, fan⟩ end_).1 =
          [.request (setRequest pel (others ++
            ("heatSetting:" ++ formatInt (Float64.trunc mant exp) ++ ";") ++
            setpointsValue p ⟨none, cool⟩))]) ∧
      (∀ heat override mode fan others,
        stateValue p ⟨heat, none, override, mode, fan⟩ = .ok others →
        (ModifyState p pel ⟨heat, some (.finite mant exp), override, mode, fan⟩ end_).1 =
          [.request (setRequest pel (others ++
            ("coolSetting:" ++ formatInt (Float64.trunc mant exp) ++ ";")))]) := by
  have hx := toInt_finite p mant exp hfit
  refine ⟨decimalValue_formatInt _, fun cool => ?_, fun heat => ?_,
    fun cool override mode fan others ho => ?_,
    fun heat override mode fan others ho => ?_⟩
  · rw [ModifySetpoints_sent]
    cases cool <;> simp [setpointsValue, hx, String.append_assoc]
  · rw [ModifySetpoints_sent]
    cases heat <;> simp [setpointsValue, hx, String.append_assoc]
  · apply ModifyState_sent
    obtain ⟨hmode, hv⟩ := stateValue_inv p _ others ho
    rw [stateValue_ok p ⟨some (.finite mant exp), cool, override, mode, fan⟩
      (fun m hm => hmode m hm), hv]
    cases cool <;> cases override <;> cases mode <;> cases fan <;>
      simp [specValueClause, stateFields, String.join, String.append_assoc, key_colon,
        setpointsValue, hx]
  · apply ModifyState_sent
    obtain ⟨hmode, hv⟩ := stateValue_inv p _ others ho
    rw [stateValue_ok p ⟨heat, some (.finite mant exp), override, mode, fan⟩
      (fun m hm => hmode m hm), hv]
    cases heat <;> cases override <;> cases mode <;> cases fan <;>
      simp [specValueClause, stateFields, String.join, String.append_assoc, key_colon,
        setpointsValue, hx]

theorem setpoint_truncation_witness :
    (ModifySetpoints amd64 lobby ⟨some (.finite 4834332725005517 (-46)), none⟩
          (okResponse ⟨heatingReading, 1, ""⟩)).1 =
        [.request (setRequest lobby "heatSetting:68;")] ∧
      (ModifyState amd64 lobby
          ⟨some (.finite 4834332725005517 (-46)), none, none, some (.finite 1 0), none⟩
          (okResponse ⟨heatingReading, 1, ""⟩)).1 =
        [.request (setRequest lobby "system:Heat;heatSetting:68;")] :=
  ⟨(setpoint_truncation amd64 lobby (okResponse ⟨heatingReading, 1, ""⟩)
      4834332725005517 (-46) (by decide)).2.1 none,
    (setpoint_truncation amd64 lobby (okResponse ⟨heatingReading, 1, ""⟩)
      4834332725005517 (-46) (by decide)).2.2.2.1 none none (some (.finite 1 0)) none
      "system:Heat;" rfl⟩

/-- C7 as stated fails: the setpoint `2 ^ 63` truncates to 9223372036854775808,
which no `int` holds; the pair written is `heatSetting:-9223372036854775808;`
on one platform and `heatSetting:9223372036854775807;` on the other. -/
theorem setpoint_counterexample :
    Float64.trunc 1 63 = 9223372036854775808 ∧
      (ModifySetpoints amd64 lobby ⟨some (.finite 1 63), none⟩
          (okResponse ⟨heatingReading, 1, ""⟩)).1 =
        [.request (setRequest lobby "heatSetting:-9223372036854775808;")] ∧
      (ModifySetpoints arm64 lobby ⟨some (.finite 1 63), none⟩
          (okResponse ⟨heatingReading, 1, ""⟩)).1 =
        [.request (setRequest lobby "heatSetting:9223372036854775807;")] := by
  decide

end PelicanDriver
